import Mathlib

/-!
Verification development for the admission-control and concurrency-gating
layer of the gateway server.  The definitions below are shallow embeddings of
the JavaScript functions in src/unnamed/part_002 (the latest server revision);
line numbers in the doc comments refer to that file.  Times are milliseconds
since an arbitrary origin, modelled as natural numbers; note that JavaScript
subtraction `now - ts` followed by a comparison against a positive constant
behaves exactly like truncated Nat subtraction in every branch test embedded
here (a negative difference and a zero difference fall into the same branch).
-/

namespace Gateway

/-! ### Rate limiter: in-process fixed-window fallback (part_002 lines 65-81) -/

/-- Entry of the `rateCounters` map (part_002 line 66): a request count and the
start timestamp of the current fixed 60-second window. -/
structure RLEntry where
  count : Nat
  windowStart : Nat
deriving Repr, DecidableEq

/-- Result returned by `checkRateLimit`: the `allowed` flag and the `used`
counter it reports. -/
structure RLResult where
  allowed : Bool
  used : Nat
deriving Repr, DecidableEq

/-- Shallow embedding of `checkRateLimit` (part_002 lines 67-81) for one key:
if no entry exists or the window is at least 60 000 ms old, a fresh entry
starting `now` is used; the count is incremented on every call (also on
rejected ones) and the call is allowed exactly when the incremented count does
not exceed `limit + leeway`. -/
def checkRateLimit (limit leeway : Nat) (st : Option RLEntry) (now : Nat) :
    RLResult × RLEntry :=
  let e0 :=
    match st with
    | none => ({ count := 0, windowStart := now } : RLEntry)
    | some prev =>
        if 60000 ≤ now - prev.windowStart then { count := 0, windowStart := now } else prev
  let e1 : RLEntry := { e0 with count := e0.count + 1 }
  ({ allowed := decide (e1.count ≤ limit + leeway), used := e1.count }, e1)

/-- One logged admission decision: the call time, the allowed flag, and the
window-start timestamp of the entry that served the call. -/
structure RLCall where
  time : Nat
  allowed : Bool
  ws : Nat
deriving Repr, DecidableEq

/-- Run a sequence of admission checks against one RateKey, logging each
decision together with the fixed window that served it. -/
def runRateLimit (limit leeway : Nat) : Option RLEntry → List Nat → List RLCall
  | _, [] => []
  | st, t :: ts =>
    let p := checkRateLimit limit leeway st t
    { time := t, allowed := p.1.allowed, ws := p.2.windowStart } ::
      runRateLimit limit leeway (some p.2) ts

/-- Number of `allowed:true` results whose call time lies in `[lo, hi]`. -/
def allowedInWindow : List RLCall → Nat → Nat → Nat
  | [], _, _ => 0
  | c :: rest, lo, hi =>
      (if c.allowed = true ∧ lo ≤ c.time ∧ c.time ≤ hi then 1 else 0) +
        allowedInWindow rest lo hi

/-- Number of `allowed:true` results served by the fixed window starting at
`w`. -/
def allowedWithWS : List RLCall → Nat → Nat
  | [], _ => 0
  | c :: rest, w =>
      (if c.allowed = true ∧ c.ws = w then 1 else 0) + allowedWithWS rest w

lemma checkRateLimit_snd_reset (limit leeway : Nat) (prev : RLEntry) (now : Nat)
    (h : 60000 ≤ now - prev.windowStart) :
    checkRateLimit limit leeway (some prev) now =
      ({ allowed := decide (1 ≤ limit + leeway), used := 1 },
       { count := 1, windowStart := now }) := by
  simp [checkRateLimit, h]

lemma checkRateLimit_snd_same (limit leeway : Nat) (prev : RLEntry) (now : Nat)
    (h : ¬ 60000 ≤ now - prev.windowStart) :
    checkRateLimit limit leeway (some prev) now =
      ({ allowed := decide (prev.count + 1 ≤ limit + leeway), used := prev.count + 1 },
       { count := prev.count + 1, windowStart := prev.windowStart }) := by
  simp [checkRateLimit, h]

/-- Invariant behind the fixed-window bound: from an arbitrary live entry, the
future log credits at most the remaining budget to the current window, nothing
to older windows, and at most the full budget to any newer window. -/
lemma runRateLimit_ws_bound (limit leeway : Nat) :
    ∀ (ts : List Nat) (e : RLEntry) (w : Nat),
      allowedWithWS (runRateLimit limit leeway (some e) ts) w ≤
        (if w = e.windowStart then limit + leeway - e.count
         else if w < e.windowStart then 0 else limit + leeway) := by
  intro ts
  induction ts with
  | nil =>
    intro e w
    simp only [runRateLimit, allowedWithWS]
    split <;> simp
  | cons t ts ih =>
    intro e w
    by_cases hreset : 60000 ≤ t - e.windowStart
    · have hlt : e.windowStart < t := by omega
      rw [show runRateLimit limit leeway (some e) (t :: ts) =
            { time := t, allowed := decide (1 ≤ limit + leeway), ws := t } ::
              runRateLimit limit leeway (some { count := 1, windowStart := t }) ts from by
        simp [runRateLimit, checkRateLimit_snd_reset limit leeway e t hreset]]
      have hrec := ih { count := 1, windowStart := t } w
      simp only [allowedWithWS, decide_eq_true_eq] at hrec ⊢
      split_ifs at hrec ⊢ <;> omega
    · rw [show runRateLimit limit leeway (some e) (t :: ts) =
            { time := t, allowed := decide (e.count + 1 ≤ limit + leeway),
              ws := e.windowStart } ::
              runRateLimit limit leeway
                (some { count := e.count + 1, windowStart := e.windowStart }) ts from by
        simp [runRateLimit, checkRateLimit_snd_same limit leeway e t hreset]]
      have hrec := ih { count := e.count + 1, windowStart := e.windowStart } w
      simp only [allowedWithWS, decide_eq_true_eq] at hrec ⊢
      split_ifs at hrec ⊢ <;> omega

/-- Claim C3, amended: for every sequence of admission checks against one
RateKey on the in-process fallback, the number of `allowed:true` results served
by any single fixed 60-second window (a maximal run sharing one
`windowStart`) never exceeds `limit + leeway`.  The sliding-window version of
the claim is false, see the counterexample theorem. -/
theorem rateLimit_fixed_window_bound (limit leeway : Nat) (ts : List Nat) (w : Nat) :
    allowedWithWS (runRateLimit limit leeway none ts) w ≤ limit + leeway := by
  cases ts with
  | nil => simp [runRateLimit, allowedWithWS]
  | cons t ts =>
    rw [show runRateLimit limit leeway none (t :: ts) =
          { time := t, allowed := decide (1 ≤ limit + leeway), ws := t } ::
            runRateLimit limit leeway (some { count := 1, windowStart := t }) ts from by
      simp [runRateLimit, checkRateLimit]]
    have hrec := runRateLimit_ws_bound limit leeway ts { count := 1, windowStart := t } w
    simp only [allowedWithWS, decide_eq_true_eq] at hrec ⊢
    split_ifs at hrec ⊢ <;> omega

/-- Claim C3, counterexample: with `baseLimitPerMinute = 5` and `leeway = 0`
(capacity 5), the call trace `0, 59999 ×4, 60000 ×5` yields ten
`allowed:true` results, nine of which fall inside the 2-millisecond span
`[59999, 60000]` — hence inside a single sliding 60-second window — exceeding
the capacity 5.  The fixed window simply rolled over between 59999 and 60000. -/
theorem rateLimit_sliding_window_cx :
    allowedInWindow
        (runRateLimit 5 0 none
          [0, 59999, 59999, 59999, 59999, 60000, 60000, 60000, 60000, 60000])
        59999 60000 = 9 ∧ 5 + 0 < 9 := by
  constructor
  · decide
  · decide

/-! ### Concurrency gate (part_002 lines 144-186) -/

/-- Gate state: the `activeUpstream` counter and the FIFO `waitQueue`
(part_002 lines 145-146).  Queued waiters are identified by tokens. -/
structure GateState where
  active : Nat
  queue : List Nat
deriving Repr, DecidableEq

/-- Outcome of an acquisition attempt (part_002 lines 148-173): an immediate
grant, an enqueued waiter, or an immediate `queue_overflow` rejection. -/
inductive AcquireOutcome
  | granted
  | queued
  | overflow
deriving Repr, DecidableEq

/-- Shallow embedding of the synchronous decision inside `acquireSlot`
(part_002 lines 148-173): grant immediately while `active < maxConc`;
otherwise reject with overflow when the queue already holds `maxQ` entries;
otherwise push the waiter at the back of the queue. -/
def acquireSlot (maxConc maxQ : Nat) (s : GateState) (wtr : Nat) :
    AcquireOutcome × GateState :=
  if s.active < maxConc then
    (.granted, { s with active := s.active + 1 })
  else if maxQ ≤ s.queue.length then
    (.overflow, s)
  else
    (.queued, { s with queue := s.queue ++ [wtr] })

/-- Shallow embedding of `pumpQueue` (part_002 lines 175-181): while capacity
remains, shift the longest-waiting entry off the front of the queue and grant
it (each grant increments the active count).  Returns the new active count,
the remaining queue, and the granted waiters in grant order. -/
def pumpQueue (maxConc : Nat) : Nat → List Nat → Nat × List Nat × List Nat
  | a, [] => (a, [], [])
  | a, wtr :: rest =>
    if a < maxConc then
      let p := pumpQueue maxConc (a + 1) rest
      (p.1, p.2.1, wtr :: p.2.2)
    else (a, wtr :: rest, [])

/-- Shallow embedding of the effect of a (first) call to the release closure
(part_002 line 154): `activeUpstream = Math.max(0, activeUpstream - 1)` —
truncated Nat subtraction — followed by `pumpQueue()`.  Also returns the list
of waiters granted by the pump. -/
def releaseSlot (maxConc : Nat) (s : GateState) : GateState × List Nat :=
  let p := pumpQueue maxConc (s.active - 1) s.queue
  ({ active := p.1, queue := p.2.1 }, p.2.2)

/-- Release handle with the `released` flag of part_002 lines 153-154: a second
call to the closure is a no-op.  The Bool result records whether this call
actually performed the release. -/
structure SlotHandle where
  released : Bool
deriving Repr, DecidableEq

def releaseHandle (maxConc : Nat) (h : SlotHandle) (s : GateState) :
    SlotHandle × GateState × Bool :=
  if h.released then (h, s, false)
  else ({ released := true }, (releaseSlot maxConc s).1, true)

/-- Interleaving events against the gate: an acquisition attempt, a release by
some slot holder, and the queue-timeout callback (part_002 lines 165-170),
which removes the item from the queue if it is still there. -/
inductive GateEvent
  | acquire (wtr : Nat)
  | release
  | timeout (wtr : Nat)
deriving Repr, DecidableEq

def gateStep (maxConc maxQ : Nat) (s : GateState) : GateEvent → GateState
  | .acquire w => (acquireSlot maxConc maxQ s w).2
  | .release => (releaseSlot maxConc s).1
  | .timeout w => { s with queue := s.queue.erase w }

/-- Run an arbitrary interleaved event sequence from a state.  Every prefix of
a sequence is itself a sequence, so a property proved for all sequences holds
at every intermediate step. -/
def runGate (maxConc maxQ : Nat) (s : GateState) (evs : List GateEvent) : GateState :=
  evs.foldl (gateStep maxConc maxQ) s

/-- Shallow embedding of `executeUpstream` (part_002 lines 183-186) from the
point where `acquireSlot` has granted (active incremented, fresh unreleased
handle): the task runs to completion with either a value or a thrown error,
and the `finally` block calls the release closure exactly once either way.
Returns the task outcome (re-raised unchanged), the final gate state, and the
number of effective releases performed. -/
def executeUpstream (maxConc : Nat) (s : GateState) (task : Except Nat Nat) :
    Except Nat Nat × GateState × Nat :=
  let s1 : GateState := { s with active := s.active + 1 }
  let h : SlotHandle := { released := false }
  let r := releaseHandle maxConc h s1
  (task, r.2.1, if r.2.2 then 1 else 0)

lemma pumpQueue_active_le (maxConc : Nat) :
    ∀ (q : List Nat) (a : Nat), a ≤ maxConc → (pumpQueue maxConc a q).1 ≤ maxConc := by
  intro q
  induction q with
  | nil => intro a ha; simpa [pumpQueue] using ha
  | cons w rest ih =>
    intro a ha
    by_cases h : a < maxConc
    · simpa [pumpQueue, h] using ih (a + 1) (by omega)
    · simpa [pumpQueue, h] using ha

lemma gateStep_active_le (maxConc maxQ : Nat) (s : GateState) (ev : GateEvent)
    (hs : s.active ≤ maxConc) : (gateStep maxConc maxQ s ev).active ≤ maxConc := by
  cases ev with
  | acquire w =>
    by_cases h : s.active < maxConc
    · simp [gateStep, acquireSlot, h]; omega
    · by_cases hq : maxQ ≤ s.queue.length <;> simp [gateStep, acquireSlot, h, hq] <;> omega
  | release =>
    simpa [gateStep, releaseSlot] using
      pumpQueue_active_le maxConc s.queue (s.active - 1) (by omega)
  | timeout w => simpa [gateStep] using hs

lemma runGate_active_le (maxConc maxQ : Nat) :
    ∀ (evs : List GateEvent) (s : GateState), s.active ≤ maxConc →
      (runGate maxConc maxQ s evs).active ≤ maxConc := by
  intro evs
  induction evs with
  | nil => intro s hs; simpa [runGate] using hs
  | cons ev evs ih =>
    intro s hs
    simpa [runGate, List.foldl_cons] using
      ih (gateStep maxConc maxQ s ev) (gateStep_active_le maxConc maxQ s ev hs)

/-- Claim C1: with concurrency control enabled, for every interleaved sequence
of acquisitions, releases and timeouts starting from the initial state, the
active count satisfies `0 ≤ active ≤ maxConc` at every step (every prefix is
again such a sequence); and `executeUpstream` performs exactly one effective
release of the slot it acquired and propagates the task outcome unchanged,
whether the task returned a value or threw. -/
theorem gate_bound_and_release_once (maxConc maxQ : Nat) :
    (∀ evs : List GateEvent,
        0 ≤ (runGate maxConc maxQ { active := 0, queue := [] } evs).active ∧
        (runGate maxConc maxQ { active := 0, queue := [] } evs).active ≤ maxConc) ∧
    (∀ (s : GateState) (task : Except Nat Nat),
        (executeUpstream maxConc s task).2.2 = 1 ∧
        (executeUpstream maxConc s task).1 = task) := by
  refine ⟨fun evs => ⟨Nat.zero_le _, ?_⟩, fun s task => ⟨?_, rfl⟩⟩
  · exact runGate_active_le maxConc maxQ evs _ (Nat.zero_le _)
  · simp [executeUpstream, releaseHandle]

lemma pumpQueue_granted_append (maxConc : Nat) :
    ∀ (q : List Nat) (a : Nat),
      (pumpQueue maxConc a q).2.2 ++ (pumpQueue maxConc a q).2.1 = q := by
  intro q
  induction q with
  | nil => intro a; simp [pumpQueue]
  | cons w rest ih =>
    intro a
    by_cases h : a < maxConc
    · simp [pumpQueue, h, ih (a + 1)]
    · simp [pumpQueue, h]

/-- Claim C8: the wait queue is strictly FIFO.  First conjunct: whatever the
capacity and active count, a pump grants a prefix of the queue in order (the
granted list followed by the remaining queue is exactly the old queue, so no
later waiter is ever granted while an earlier one is still queued).  Second
conjunct: with waiters `w1, w2, w3` queued in that order on a saturated gate,
three successive releases grant exactly `w1`, then `w2`, then `w3`. -/
theorem gate_fifo (maxConc : Nat) :
    (∀ (a : Nat) (q : List Nat),
        (pumpQueue maxConc a q).2.2 ++ (pumpQueue maxConc a q).2.1 = q) ∧
    (∀ w1 w2 w3 : Nat, 0 < maxConc →
        releaseSlot maxConc { active := maxConc, queue := [w1, w2, w3] } =
          ({ active := maxConc, queue := [w2, w3] }, [w1]) ∧
        releaseSlot maxConc { active := maxConc, queue := [w2, w3] } =
          ({ active := maxConc, queue := [w3] }, [w2]) ∧
        releaseSlot maxConc { active := maxConc, queue := [w3] } =
          ({ active := maxConc, queue := [] }, [w3])) := by
  constructor
  · exact fun a q => pumpQueue_granted_append maxConc q a
  · intro w1 w2 w3 hpos
    have hlt : maxConc - 1 < maxConc := by omega
    have hsub : maxConc - 1 + 1 = maxConc := by omega
    have hnlt : ¬ maxConc < maxConc := by omega
    refine ⟨?_, ?_, ?_⟩ <;>
      simp [releaseSlot, pumpQueue, hlt, hsub, hnlt]

/-- Closed witness for the FIFO theorem at `maxConc = 2` and waiters 1,2,3. -/
theorem gate_fifo_witness :
    (pumpQueue 2 0 [5, 7]).2.2 ++ (pumpQueue 2 0 [5, 7]).2.1 = [5, 7] ∧
    releaseSlot 2 { active := 2, queue := [1, 2, 3] } =
      ({ active := 2, queue := [2, 3] }, [1]) := by
  exact ⟨(gate_fifo 2).1 0 [5, 7], ((gate_fifo 2).2 1 2 3 (by decide)).1⟩

/-! ### Error surfacing for gate rejections (part_002 lines 160, 988-1021) -/

/-- Minimal model of a thrown JavaScript error as inspected by the route
handlers: an optional carried HTTP status and a message.
`new Error('queue_overflow')` (part_002 line 160) carries no status. -/
structure JsError where
  status : Option Nat
  message : String
deriving Repr, DecidableEq

def queueOverflowError : JsError := { status := none, message := "queue_overflow" }

/-- Status-code selection performed by every catch block, e.g. part_002
line 1011: `err?.status || err?.response?.status || 500`. -/
def errorStatusCode (e : JsError) : Nat := e.status.getD 500

/-- Body of the JSON error response built by the `/v1/embeddings` catch block
(part_002 lines 1012-1019). -/
structure ErrorBody where
  message : String
  errType : String
deriving Repr, DecidableEq

/-- Response of the `/v1/embeddings` handler when `executeUpstream` rejects:
HTTP status from `errorStatusCode` and the generic error body. -/
def embeddingsErrorResponse (e : JsError) : Nat × ErrorBody :=
  (errorStatusCode e, { message := e.message, errType := "invalid_request_error" })

/-- Claim C4, counterexample: a `queue_overflow` rejection reaching the
`/v1/embeddings` catch block is surfaced with HTTP status 500, not 503 — the
overflow error carries no status, so the handler falls back to 500. -/
theorem queue_overflow_http_status_cx :
    (embeddingsErrorResponse queueOverflowError).1 = 500 ∧ (500 : Nat) ≠ 503 := by
  constructor
  · rfl
  · decide

/-- Claim C4, amended: when the gate is saturated (`maxConc ≤ active`) and the
wait queue already holds at least `maxQ` entries, a new acquisition is
rejected immediately with the `queue_overflow` condition and the state is
unchanged; the caller surfaces that rejection to the client as an HTTP 500
response (not 503) whose error message is `queue_overflow`. -/
theorem queue_overflow_rejected (maxConc maxQ : Nat) (s : GateState) (wtr : Nat)
    (hsat : maxConc ≤ s.active) (hfull : maxQ ≤ s.queue.length) :
    acquireSlot maxConc maxQ s wtr = (.overflow, s) ∧
    embeddingsErrorResponse queueOverflowError =
      (500, { message := "queue_overflow", errType := "invalid_request_error" }) := by
  constructor
  · simp [acquireSlot, Nat.not_lt.mpr hsat, hfull]
  · rfl

/-- Closed witness for the overflow rejection theorem: gate `maxConc = 2`,
`maxQ = 1`, two active holders and one queued waiter. -/
theorem queue_overflow_rejected_witness :
    acquireSlot 2 1 { active := 2, queue := [9] } 4 =
      (.overflow, { active := 2, queue := [9] }) ∧
    embeddingsErrorResponse queueOverflowError =
      (500, { message := "queue_overflow", errType := "invalid_request_error" }) :=
  queue_overflow_rejected 2 1 { active := 2, queue := [9] } 4 (by decide) (by decide)

/-! ### Adaptive per-model limit estimator (part_002 lines 283-361)

The JavaScript code computes `Math.ceil(guess * 1.2)`, `Math.floor(guess * 0.6)`
and `Math.floor(guess * 0.5)` on IEEE doubles.  For every natural `guess` in
the ranges reachable here these coincide exactly with the rational operations
`ceil (6g/5)`, `floor (3g/5)` and `floor (g/2)`: the doubles nearest to 1.2 and
0.6 sit below the true rationals by less than `2^-52` relatively, products at
multiples of five round back to the exact integer, and at non-multiples the
distance to the nearer integer is at least 1/5, far above the rounding error.
The utilization test `success / Math.max(1, guess) >= 0.8` likewise coincides
with `4 * max 1 guess ≤ 5 * success`.  The embedding therefore uses exact Nat
arithmetic. -/

/-- State stored per model in `adaptiveModelStats` (part_002 lines 284, 327). -/
structure AdaptiveState where
  guess : Nat
  success : Nat
  r429 : Nat
  windowStart : Nat
  lastUp : Nat
  lastDown : Nat
  hardCap : Bool
  last429At : Nat
  updatedAt : Nat
deriving Repr, DecidableEq

/-- Window rollover shared by both adjustment functions (part_002 lines
337-340 and 353): if strictly more than 60 000 ms elapsed since
`windowStart`, reset both rolling counters and restart the window. -/
def rollWindow (s : AdaptiveState) (now : Nat) : AdaptiveState :=
  if 60000 < now - s.windowStart then
    { s with success := 0, r429 := 0, windowStart := now }
  else s

/-- Exact value of `Math.min(200, Math.ceil(guess * 1.2))` (part_002 line 344). -/
def ceilIncrease (g : Nat) : Nat := min 200 ((6 * g + 4) / 5)

/-- Exact value of `Math.max(1, Math.floor(guess * factor))` with factor 0.5
when hard-capped and 0.6 otherwise (part_002 lines 357-358). -/
def floorDecrease (g : Nat) (hard : Bool) : Nat :=
  max 1 (if hard then g / 2 else 3 * g / 5)

/-- Shallow embedding of `adjustAdaptiveOnSuccess` (part_002 lines 333-347). -/
def adjustAdaptiveOnSuccess (s : AdaptiveState) (now : Nat) : AdaptiveState :=
  let s := rollWindow s now
  let s := { s with success := s.success + 1 }
  if s.r429 = 0 ∧ 4 * max 1 s.guess ≤ 5 * s.success ∧ 300000 < now - s.lastUp ∧
      s.hardCap = false then
    let newGuess := ceilIncrease s.guess
    if s.guess < newGuess then
      { s with guess := newGuess, lastUp := now, updatedAt := now }
    else s
  else s

/-- Shallow embedding of `adjustAdaptiveOn429` (part_002 lines 349-361). -/
def adjustAdaptiveOn429 (s : AdaptiveState) (now : Nat) : AdaptiveState :=
  let s := rollWindow s now
  let s := { s with r429 := s.r429 + 1, last429At := now }
  let s := if 2 ≤ s.r429 ∧ s.success ≤ 2 then { s with hardCap := true } else s
  if 30000 < now - s.lastDown then
    let newGuess := floorDecrease s.guess s.hardCap
    if newGuess < s.guess then
      { s with guess := newGuess, lastDown := now, updatedAt := now }
    else s
  else s

/-- Shallow embedding of `getOrInitAdaptive` (part_002 lines 324-331) for a
model with no existing state.  Both adjustment functions call it without a
`base` argument, so the initial guess is `RATE_LIMIT_PER_MINUTE`. -/
def getOrInitAdaptive (ratePerMinute : Nat) (st : Option AdaptiveState) (now : Nat) :
    AdaptiveState :=
  match st with
  | some s => s
  | none =>
      { guess := ratePerMinute, success := 0, r429 := 0, windowStart := now,
        lastUp := 0, lastDown := 0, hardCap := false, last429At := 0, updatedAt := now }

/-- Shallow embedding of `getAdaptiveGuess` (part_002 lines 113-117):
`s?.guess || null` maps a zero guess to null as well. -/
def getAdaptiveGuess (st : Option AdaptiveState) : Option Nat :=
  match st with
  | some s => if s.guess = 0 then none else some s.guess
  | none => none

/-- Estimator events: an `onSuccess` or `onReject` observation at a time. -/
inductive AdEvent
  | success (t : Nat)
  | reject (t : Nat)
deriving Repr, DecidableEq

def evTime : AdEvent → Nat
  | .success t => t
  | .reject t => t

def adStep (s : AdaptiveState) : AdEvent → AdaptiveState
  | .success t => adjustAdaptiveOnSuccess s t
  | .reject t => adjustAdaptiveOn429 s t

def runAdaptive (s : AdaptiveState) (evs : List AdEvent) : AdaptiveState :=
  evs.foldl adStep s

def countRejects (evs : List AdEvent) : Nat :=
  (evs.filter fun e => match e with | .reject _ => true | .success _ => false).length

def countSuccesses (evs : List AdEvent) : Nat :=
  (evs.filter fun e => match e with | .success _ => true | .reject _ => false).length

lemma rollWindow_guess (s : AdaptiveState) (now : Nat) :
    (rollWindow s now).guess = s.guess := by
  unfold rollWindow; split <;> rfl

lemma rollWindow_hardCap (s : AdaptiveState) (now : Nat) :
    (rollWindow s now).hardCap = s.hardCap := by
  unfold rollWindow; split <;> rfl

lemma ceilIncrease_bounds (g : Nat) (h : 1 ≤ g) :
    1 ≤ ceilIncrease g ∧ ceilIncrease g ≤ 200 := by
  unfold ceilIncrease
  refine ⟨le_min_iff.mpr ⟨by norm_num, by omega⟩, min_le_left _ _⟩

lemma floorDecrease_bounds (g : Nat) (hard : Bool) (h2 : g ≤ 200) :
    1 ≤ floorDecrease g hard ∧ floorDecrease g hard ≤ 200 := by
  unfold floorDecrease
  refine ⟨le_max_left _ _, max_le_iff.mpr ⟨by norm_num, ?_⟩⟩
  cases hard <;> simp <;> omega

lemma adjustAdaptiveOnSuccess_guess_bounds (s : AdaptiveState) (now : Nat)
    (h1 : 1 ≤ s.guess) (h2 : s.guess ≤ 200) :
    1 ≤ (adjustAdaptiveOnSuccess s now).guess ∧
      (adjustAdaptiveOnSuccess s now).guess ≤ 200 := by
  have hg := rollWindow_guess s now
  have hci := ceilIncrease_bounds s.guess h1
  unfold adjustAdaptiveOnSuccess
  dsimp only
  split_ifs <;> simp [hg] <;> omega

lemma adjustAdaptiveOn429_guess_bounds (s : AdaptiveState) (now : Nat)
    (h1 : 1 ≤ s.guess) (h2 : s.guess ≤ 200) :
    1 ≤ (adjustAdaptiveOn429 s now).guess ∧
      (adjustAdaptiveOn429 s now).guess ≤ 200 := by
  have hg := rollWindow_guess s now
  have hc := rollWindow_hardCap s now
  have hf0 := floorDecrease_bounds s.guess false h2
  have hf1 := floorDecrease_bounds s.guess true h2
  have hfs := floorDecrease_bounds s.guess s.hardCap h2
  unfold adjustAdaptiveOn429
  dsimp only
  split_ifs <;> simp [hg, hc] at * <;> omega

lemma runAdaptive_guess_bounds :
    ∀ (evs : List AdEvent) (s : AdaptiveState), 1 ≤ s.guess → s.guess ≤ 200 →
      1 ≤ (runAdaptive s evs).guess ∧ (runAdaptive s evs).guess ≤ 200 := by
  intro evs
  induction evs with
  | nil => intro s h1 h2; exact ⟨h1, h2⟩
  | cons ev evs ih =>
    intro s h1 h2
    have hstep : 1 ≤ (adStep s ev).guess ∧ (adStep s ev).guess ≤ 200 := by
      cases ev with
      | success t => exact adjustAdaptiveOnSuccess_guess_bounds s t h1 h2
      | reject t => exact adjustAdaptiveOn429_guess_bounds s t h1 h2
    simpa [runAdaptive, List.foldl_cons] using ih (adStep s ev) hstep.1 hstep.2

/-- Claim C7, counterexample: with a configured base per-minute limit of 300,
the lazily initialized state has `guess = 300`, and `guess(model)` reports 300,
which exceeds 200; a subsequent `onSuccess` call leaves it at 300 (the clamp
only applies to increases the estimator itself performs). -/
theorem adaptive_guess_range_cx :
    getAdaptiveGuess (some (getOrInitAdaptive 300 none 0)) = some 300 ∧
    200 < 300 ∧
    (adjustAdaptiveOnSuccess (getOrInitAdaptive 300 none 0) 1000).guess = 300 := by
  refine ⟨rfl, by decide, by decide⟩

/-- Claim C7, amended: provided the configured base per-minute limit lies in
`[1, 200]` (the default is 30), the guess of a lazily initialized model state
stays within `[1, 200]` across every sequence of estimator operations. -/
theorem adaptive_guess_range (rpm now0 : Nat) (evs : List AdEvent)
    (hlo : 1 ≤ rpm) (hhi : rpm ≤ 200) :
    1 ≤ (runAdaptive (getOrInitAdaptive rpm none now0) evs).guess ∧
      (runAdaptive (getOrInitAdaptive rpm none now0) evs).guess ≤ 200 :=
  runAdaptive_guess_bounds evs (getOrInitAdaptive rpm none now0) hlo hhi

/-- Closed witness for the guess-range theorem at the default configuration
`RATE_LIMIT_PER_MINUTE = 30` and a short observation trace. -/
theorem adaptive_guess_range_witness :
    1 ≤ (runAdaptive (getOrInitAdaptive 30 none 0)
          [AdEvent.reject 40000, AdEvent.success 50000]).guess ∧
    (runAdaptive (getOrInitAdaptive 30 none 0)
          [AdEvent.reject 40000, AdEvent.success 50000]).guess ≤ 200 :=
  adaptive_guess_range 30 0 [AdEvent.reject 40000, AdEvent.success 50000]
    (by decide) (by decide)

lemma rollWindow_noop (s : AdaptiveState) (now : Nat)
    (h : now - s.windowStart ≤ 60000) : rollWindow s now = s := by
  unfold rollWindow; rw [if_neg (by omega)]

lemma onSuccess_noinc (s : AdaptiveState) (now : Nat)
    (hwin : now - s.windowStart ≤ 60000)
    (h : s.r429 ≠ 0 ∨ 5 * (s.success + 1) < 4 * max 1 s.guess ∨ s.hardCap = true) :
    adjustAdaptiveOnSuccess s now = { s with success := s.success + 1 } := by
  unfold adjustAdaptiveOnSuccess
  rw [rollWindow_noop s now hwin]
  dsimp only
  rw [if_neg]
  rintro ⟨h1, h2, _, h4⟩
  rcases h with h | h | h
  · exact h h1
  · omega
  · simp [h] at h4

lemma onSuccess_noinc_cooldown (s : AdaptiveState) (now : Nat)
    (hwin : now - s.windowStart ≤ 60000) (hcd : now - s.lastUp ≤ 300000) :
    adjustAdaptiveOnSuccess s now = { s with success := s.success + 1 } := by
  unfold adjustAdaptiveOnSuccess
  rw [rollWindow_noop s now hwin]
  dsimp only
  rw [if_neg]
  rintro ⟨_, _, h3, _⟩
  omega

lemma onSuccess_inc (s : AdaptiveState) (now : Nat)
    (hwin : now - s.windowStart ≤ 60000) (h0 : s.r429 = 0)
    (hutil : 4 * max 1 s.guess ≤ 5 * (s.success + 1))
    (hcd : 300000 < now - s.lastUp) (hcap : s.hardCap = false)
    (hlt : s.guess < min 200 ((6 * s.guess + 4) / 5)) :
    adjustAdaptiveOnSuccess s now =
      { s with success := s.success + 1, guess := min 200 ((6 * s.guess + 4) / 5),
               lastUp := now, updatedAt := now } := by
  unfold adjustAdaptiveOnSuccess ceilIncrease
  rw [rollWindow_noop s now hwin]
  dsimp only
  rw [if_pos ⟨h0, hutil, hcd, hcap⟩, if_pos hlt]

lemma onSuccess_guess_char (s : AdaptiveState) (now : Nat)
    (hhi : s.guess ≤ 200) (hwin : now - s.windowStart ≤ 60000) :
    (adjustAdaptiveOnSuccess s now).guess =
      if s.r429 = 0 ∧ 4 * max 1 s.guess ≤ 5 * (s.success + 1) ∧
          300000 < now - s.lastUp ∧ s.hardCap = false
      then min 200 ((6 * s.guess + 4) / 5) else s.guess := by
  unfold adjustAdaptiveOnSuccess ceilIncrease
  rw [rollWindow_noop s now hwin]
  dsimp only
  split_ifs with h1 h2
  · rfl
  · dsimp only; omega
  · rfl

/-- Claim C6, counterexample: at the cooldown boundary the claimed rule fails.
State: `guess = 10`, `success = 7`, no rejects this window, not hard-capped,
last increase at time 0, window started at 280 000.  An `onSuccess` call at
time 300 000 has `rejectCount = 0`, utilization `8/10 ≥ 0.8`, exactly five
minutes (300 000 ms, hence at least five minutes) since the last increase, and
no hard cap; the claim says the guess is multiplied by 1.2 to 12, but the code
requires strictly more than 300 000 ms and leaves the guess at 10. -/
theorem adaptive_increase_boundary_cx :
    (adjustAdaptiveOnSuccess
        { guess := 10, success := 7, r429 := 0, windowStart := 280000, lastUp := 0,
          lastDown := 0, hardCap := false, last429At := 0, updatedAt := 0 }
        300000).guess = 10 ∧ (10 : Nat) ≠ 12 := by
  constructor
  · decide
  · decide

/-- Claim C6, amended: (1) on a window-resident `onSuccess` call with an
in-range guess, the guess becomes `min 200 (ceil (1.2 * guess))` exactly when
`rejectCount = 0` in the window, the post-increment utilization is at least
0.8, strictly more than five minutes (300 000 ms) have elapsed since the last
increase, and the model is not hard-capped — otherwise it is unchanged; and
(2) from `guess = 10`, ten `onSuccess` calls within one 60-second window with
the up-cooldown elapsed leave `guess = 12` (the eighth call reaches
utilization 0.8 and raises 10 to 12; the tenth is then inside the new
cooldown). -/
theorem adaptive_increase_rule :
    (∀ (s : AdaptiveState) (now : Nat), s.guess ≤ 200 → now - s.windowStart ≤ 60000 →
      (adjustAdaptiveOnSuccess s now).guess =
        if s.r429 = 0 ∧ 4 * max 1 s.guess ≤ 5 * (s.success + 1) ∧
            300000 < now - s.lastUp ∧ s.hardCap = false
        then min 200 ((6 * s.guess + 4) / 5) else s.guess) ∧
    (∀ w lu ld t1 t2 t3 t4 t5 t6 t7 t8 t9 t10 : Nat,
      (∀ t ∈ [t1, t2, t3, t4, t5, t6, t7, t8, t9, t10],
          w ≤ t ∧ t ≤ w + 60000 ∧ lu + 300000 < t) →
      (runAdaptive
          { guess := 10, success := 0, r429 := 0, windowStart := w, lastUp := lu,
            lastDown := ld, hardCap := false, last429At := 0, updatedAt := 0 }
          [AdEvent.success t1, AdEvent.success t2, AdEvent.success t3,
           AdEvent.success t4, AdEvent.success t5, AdEvent.success t6,
           AdEvent.success t7, AdEvent.success t8, AdEvent.success t9,
           AdEvent.success t10]).guess = 12) := by
  constructor
  · exact fun s now hhi hwin => onSuccess_guess_char s now hhi hwin
  · intro w lu ld t1 t2 t3 t4 t5 t6 t7 t8 t9 t10 H
    have b1 := H t1 (by simp)
    have b2 := H t2 (by simp)
    have b3 := H t3 (by simp)
    have b4 := H t4 (by simp)
    have b5 := H t5 (by simp)
    have b6 := H t6 (by simp)
    have b7 := H t7 (by simp)
    have b8 := H t8 (by simp)
    have b9 := H t9 (by simp)
    have b10 := H t10 (by simp)
    have e1 : adjustAdaptiveOnSuccess
        { guess := 10, success := 0, r429 := 0, windowStart := w, lastUp := lu,
          lastDown := ld, hardCap := false, last429At := 0, updatedAt := 0 } t1 =
        { guess := 10, success := 1, r429 := 0, windowStart := w, lastUp := lu,
          lastDown := ld, hardCap := false, last429At := 0, updatedAt := 0 } := by
      rw [onSuccess_noinc _ _ (by dsimp only; omega) (Or.inr (Or.inl (by dsimp only; omega)))]
    have e2 : adjustAdaptiveOnSuccess
        { guess := 10, success := 1, r429 := 0, windowStart := w, lastUp := lu,
          lastDown := ld, hardCap := false, last429At := 0, updatedAt := 0 } t2 =
        { guess := 10, success := 2, r429 := 0, windowStart := w, lastUp := lu,
          lastDown := ld, hardCap := false, last429At := 0, updatedAt := 0 } := by
      rw [onSuccess_noinc _ _ (by dsimp only; omega) (Or.inr (Or.inl (by dsimp only; omega)))]
    have e3 : adjustAdaptiveOnSuccess
        { guess := 10, success := 2, r429 := 0, windowStart := w, lastUp := lu,
          lastDown := ld, hardCap := false, last429At := 0, updatedAt := 0 } t3 =
        { guess := 10, success := 3, r429 := 0, windowStart := w, lastUp := lu,
          lastDown := ld, hardCap := false, last429At := 0, updatedAt := 0 } := by
      rw [onSuccess_noinc _ _ (by dsimp only; omega) (Or.inr (Or.inl (by dsimp only; omega)))]
    have e4 : adjustAdaptiveOnSuccess
        { guess := 10, success := 3, r429 := 0, windowStart := w, lastUp := lu,
          lastDown := ld, hardCap := false, last429At := 0, updatedAt := 0 } t4 =
        { guess := 10, success := 4, r429 := 0, windowStart := w, lastUp := lu,
          lastDown := ld, hardCap := false, last429At := 0, updatedAt := 0 } := by
      rw [onSuccess_noinc _ _ (by dsimp only; omega) (Or.inr (Or.inl (by dsimp only; omega)))]
    have e5 : adjustAdaptiveOnSuccess
        { guess := 10, success := 4, r429 := 0, windowStart := w, lastUp := lu,
          lastDown := ld, hardCap := false, last429At := 0, updatedAt := 0 } t5 =
        { guess := 10, success := 5, r429 := 0, windowStart := w, lastUp := lu,
          lastDown := ld, hardCap := false, last429At := 0, updatedAt := 0 } := by
      rw [onSuccess_noinc _ _ (by dsimp only; omega) (Or.inr (Or.inl (by dsimp only; omega)))]
    have e6 : adjustAdaptiveOnSuccess
        { guess := 10, success := 5, r429 := 0, windowStart := w, lastUp := lu,
          lastDown := ld, hardCap := false, last429At := 0, updatedAt := 0 } t6 =
        { guess := 10, success := 6, r429 := 0, windowStart := w, lastUp := lu,
          lastDown := ld, hardCap := false, last429At := 0, updatedAt := 0 } := by
      rw [onSuccess_noinc _ _ (by dsimp only; omega) (Or.inr (Or.inl (by dsimp only; omega)))]
    have e7 : adjustAdaptiveOnSuccess
        { guess := 10, success := 6, r429 := 0, windowStart := w, lastUp := lu,
          lastDown := ld, hardCap := false, last429At := 0, updatedAt := 0 } t7 =
        { guess := 10, success := 7, r429 := 0, windowStart := w, lastUp := lu,
          lastDown := ld, hardCap := false, last429At := 0, updatedAt := 0 } := by
      rw [onSuccess_noinc _ _ (by dsimp only; omega) (Or.inr (Or.inl (by dsimp only; omega)))]
    have e8 : adjustAdaptiveOnSuccess
        { guess := 10, success := 7, r429 := 0, windowStart := w, lastUp := lu,
          lastDown := ld, hardCap := false, last429At := 0, updatedAt := 0 } t8 =
        { guess := 12, success := 8, r429 := 0, windowStart := w, lastUp := t8,
          lastDown := ld, hardCap := false, last429At := 0, updatedAt := t8 } := by
      rw [onSuccess_inc _ _ (by dsimp only; omega) rfl (by dsimp only; omega)
        (by dsimp only; omega) rfl (by dsimp only; omega)]
      simp [AdaptiveState.mk.injEq]
    have e9 : adjustAdaptiveOnSuccess
        { guess := 12, success := 8, r429 := 0, windowStart := w, lastUp := t8,
          lastDown := ld, hardCap := false, last429At := 0, updatedAt := t8 } t9 =
        { guess := 12, success := 9, r429 := 0, windowStart := w, lastUp := t8,
          lastDown := ld, hardCap := false, last429At := 0, updatedAt := t8 } := by
      rw [onSuccess_noinc _ _ (by dsimp only; omega) (Or.inr (Or.inl (by dsimp only; omega)))]
    have e10 : adjustAdaptiveOnSuccess
        { guess := 12, success := 9, r429 := 0, windowStart := w, lastUp := t8,
          lastDown := ld, hardCap := false, last429At := 0, updatedAt := t8 } t10 =
        { guess := 12, success := 10, r429 := 0, windowStart := w, lastUp := t8,
          lastDown := ld, hardCap := false, last429At := 0, updatedAt := t8 } := by
      rw [onSuccess_noinc_cooldown _ _ (by dsimp only; omega) (by dsimp only; omega)]
    simp only [runAdaptive, List.foldl_cons, List.foldl_nil, adStep]
    rw [e1, e2, e3, e4, e5, e6, e7, e8, e9, e10]

/-- Closed witness for the amended increase rule: the characterization at a
concrete non-increasing state, and the ten-success scenario at concrete
times. -/
theorem adaptive_increase_rule_witness :
    (adjustAdaptiveOnSuccess
        { guess := 10, success := 0, r429 := 0, windowStart := 0, lastUp := 0,
          lastDown := 0, hardCap := false, last429At := 0, updatedAt := 0 }
        1000).guess =
      (if (0 : Nat) = 0 ∧ 4 * max 1 10 ≤ 5 * (0 + 1) ∧ 300000 < 1000 - 0 ∧
          false = false
       then min 200 ((6 * 10 + 4) / 5) else 10) ∧
    (runAdaptive
        { guess := 10, success := 0, r429 := 0, windowStart := 400000, lastUp := 0,
          lastDown := 0, hardCap := false, last429At := 0, updatedAt := 0 }
        [AdEvent.success 400001, AdEvent.success 400002, AdEvent.success 400003,
         AdEvent.success 400004, AdEvent.success 400005, AdEvent.success 400006,
         AdEvent.success 400007, AdEvent.success 400008, AdEvent.success 400009,
         AdEvent.success 400010]).guess = 12 := by
  constructor
  · exact (adaptive_increase_rule.1 _ 1000 (by decide) (by decide))
  · exact (adaptive_increase_rule.2 400000 0 0 400001 400002 400003 400004 400005
      400006 400007 400008 400009 400010 (by decide))

lemma runAdaptive_nil (s : AdaptiveState) : runAdaptive s [] = s := rfl

lemma runAdaptive_cons (s : AdaptiveState) (e : AdEvent) (evs : List AdEvent) :
    runAdaptive s (e :: evs) = runAdaptive (adStep s e) evs := rfl

lemma countRejects_cons_succ (t : Nat) (evs : List AdEvent) :
    countRejects (AdEvent.success t :: evs) = countRejects evs := by
  simp [countRejects]

lemma countRejects_cons_rej (t : Nat) (evs : List AdEvent) :
    countRejects (AdEvent.reject t :: evs) = countRejects evs + 1 := by
  simp [countRejects]

lemma countSuccesses_cons_succ (t : Nat) (evs : List AdEvent) :
    countSuccesses (AdEvent.success t :: evs) = countSuccesses evs + 1 := by
  simp [countSuccesses]

lemma countSuccesses_cons_rej (t : Nat) (evs : List AdEvent) :
    countSuccesses (AdEvent.reject t :: evs) = countSuccesses evs := by
  simp [countSuccesses]

lemma onReject_first (s : AdaptiveState) (now : Nat)
    (hwin : now - s.windowStart ≤ 60000) (h0 : s.r429 = 0) (hg : s.guess = 10)
    (hcap : s.hardCap = false) (hcool : 30000 < now - s.lastDown) :
    adjustAdaptiveOn429 s now =
      { s with r429 := 1, last429At := now, guess := 6, lastDown := now,
               updatedAt := now } := by
  unfold adjustAdaptiveOn429 floorDecrease
  rw [rollWindow_noop s now hwin]
  simp only [h0, hg, hcap]
  norm_num [hcool]

/-- On the second reject of the window with at most two successes, the hard
cap is set; the guess becomes 3 if the down-cooldown elapsed again and stays 6
otherwise; the window itself is unchanged. -/
lemma onReject_second (s : AdaptiveState) (now : Nat)
    (hwin : now - s.windowStart ≤ 60000) (h1 : s.r429 = 1) (hs : s.success ≤ 2)
    (hg : s.guess = 6) :
    (adjustAdaptiveOn429 s now).hardCap = true ∧
    1 ≤ (adjustAdaptiveOn429 s now).guess ∧ (adjustAdaptiveOn429 s now).guess ≤ 6 := by
  unfold adjustAdaptiveOn429 floorDecrease
  rw [rollWindow_noop s now hwin]
  simp only [h1, hg, hs]
  norm_num [hs]
  split_ifs <;> simp

/-- Phase-indexed invariant for the hard-cap reaction: starting inside one
60-second window with down-cooldown margin on every event, an initial state
seeing its first reject at guess 10, a state after one reject at guess 6, or
an already hard-capped state with guess in `[1, 6]`, always ends hard-capped
with guess in `[1, 6]` after two rejects total and at most two successes. -/
lemma c5_master :
    ∀ (evs : List AdEvent) (s : AdaptiveState) (w ld : Nat),
      (∀ e ∈ evs, w ≤ evTime e ∧ evTime e ≤ w + 60000 ∧ ld + 30000 < evTime e) →
      s.windowStart = w →
      ((countRejects evs = 2 ∧ countSuccesses evs + s.success ≤ 2 ∧ s.guess = 10 ∧
          s.r429 = 0 ∧ s.lastDown = ld ∧ s.hardCap = false) ∨
       (countRejects evs = 1 ∧ countSuccesses evs + s.success ≤ 2 ∧ s.guess = 6 ∧
          s.r429 = 1 ∧ s.hardCap = false) ∨
       (countRejects evs = 0 ∧ s.hardCap = true ∧ 1 ≤ s.guess ∧ s.guess ≤ 6)) →
      (runAdaptive s evs).hardCap = true ∧ 1 ≤ (runAdaptive s evs).guess ∧
        (runAdaptive s evs).guess ≤ 6 := by
  intro evs
  induction evs with
  | nil =>
    intro s w ld _ _ hphase
    rcases hphase with ⟨h2, _⟩ | ⟨h1, _⟩ | ⟨_, hc, hlo, hhi⟩
    · simp [countRejects] at h2
    · simp [countRejects] at h1
    · exact ⟨hc, hlo, hhi⟩
  | cons ev evs ih =>
    intro s w ld ht hw hphase
    have hte := ht ev (by simp)
    have htrest : ∀ e ∈ evs, w ≤ evTime e ∧ evTime e ≤ w + 60000 ∧
        ld + 30000 < evTime e := fun e he => ht e (by simp [he])
    cases ev with
    | success t =>
      obtain ⟨htw1, htw2, htld⟩ := hte
      have hwin : t - s.windowStart ≤ 60000 := by rw [hw]; simp [evTime] at htw2 ⊢; omega
      rw [runAdaptive_cons]
      rcases hphase with ⟨hr, hs, hg, hr0, hld, hcap⟩ | ⟨hr, hs, hg, hr1, hcap⟩ |
        ⟨hr, hc, hlo, hhi⟩
      · have hsucc1 : s.success ≤ 1 := by
          rw [countSuccesses_cons_succ] at hs; omega
        have hstep : adStep s (AdEvent.success t) = { s with success := s.success + 1 } :=
          onSuccess_noinc s t hwin (Or.inr (Or.inl (by rw [hg]; omega)))
        rw [hstep]
        refine ih _ w ld htrest (by simpa using hw) (Or.inl ?_)
        rw [countRejects_cons_succ] at hr
        rw [countSuccesses_cons_succ] at hs
        refine ⟨hr, by dsimp only; omega, by simpa using hg, by simpa using hr0,
          by simpa using hld, by simpa using hcap⟩
      · have hstep : adStep s (AdEvent.success t) = { s with success := s.success + 1 } :=
          onSuccess_noinc s t hwin (Or.inl (by omega))
        rw [hstep]
        refine ih _ w ld htrest (by simpa using hw) (Or.inr (Or.inl ?_))
        rw [countRejects_cons_succ] at hr
        rw [countSuccesses_cons_succ] at hs
        refine ⟨hr, by dsimp only; omega, by simpa using hg, by simpa using hr1,
          by simpa using hcap⟩
      · have hstep : adStep s (AdEvent.success t) = { s with success := s.success + 1 } :=
          onSuccess_noinc s t hwin (Or.inr (Or.inr hc))
        rw [hstep]
        refine ih _ w ld htrest (by simpa using hw) (Or.inr (Or.inr ?_))
        rw [countRejects_cons_succ] at hr
        refine ⟨hr, by simpa using hc, by simpa using hlo, by simpa using hhi⟩
    | reject t =>
      obtain ⟨htw1, htw2, htld⟩ := hte
      have hwin : t - s.windowStart ≤ 60000 := by rw [hw]; simp [evTime] at htw2 ⊢; omega
      rw [runAdaptive_cons]
      rcases hphase with ⟨hr, hs, hg, hr0, hld, hcap⟩ | ⟨hr, hs, hg, hr1, hcap⟩ |
        ⟨hr, hc, hlo, hhi⟩
      · have hcool : 30000 < t - s.lastDown := by
          rw [hld]; simp [evTime] at htld; omega
        have hstep : adStep s (AdEvent.reject t) =
            { s with r429 := 1, last429At := t, guess := 6, lastDown := t,
                     updatedAt := t } :=
          onReject_first s t hwin hr0 hg hcap hcool
        rw [hstep]
        refine ih _ w ld htrest (by simpa using hw) (Or.inr (Or.inl ?_))
        rw [countRejects_cons_rej] at hr
        rw [countSuccesses_cons_rej] at hs
        refine ⟨by omega, by dsimp only; omega, by simp, by simp,
          by simpa using hcap⟩
      · have hs2 : s.success ≤ 2 := by rw [countSuccesses_cons_rej] at hs; omega
        have hstep := onReject_second s t hwin hr1 hs2 hg
        have hws : (adjustAdaptiveOn429 s t).windowStart = w := by
          unfold adjustAdaptiveOn429 floorDecrease
          rw [rollWindow_noop s t hwin]
          dsimp only
          split_ifs <;> simpa using hw
        rw [show adStep s (AdEvent.reject t) = adjustAdaptiveOn429 s t from rfl]
        refine ih _ w ld htrest hws (Or.inr (Or.inr ?_))
        rw [countRejects_cons_rej] at hr
        exact ⟨by omega, hstep.1, hstep.2.1, hstep.2.2⟩
      · rw [countRejects_cons_rej] at hr; omega

/-- Claim C5: for a model whose adaptive state has `guess = 10` and fresh
window counters, any interleaving of exactly two `onReject` calls and at most
two `onSuccess` calls, all within one 60-second window and each past the
30-second down-cooldown, leaves the model hard-capped with a reduced guess in
`[1, 6]` (the first reject floors `10 × 0.6` to 6; a second cooldown-eligible
reject at the then-set hard cap floors `6 × 0.5` to 3). -/
theorem adaptive_hardcap_reaction (w lu ld : Nat) (evs : List AdEvent)
    (hr : countRejects evs = 2) (hs : countSuccesses evs ≤ 2)
    (ht : ∀ e ∈ evs, w ≤ evTime e ∧ evTime e ≤ w + 60000 ∧ ld + 30000 < evTime e) :
    (runAdaptive
        { guess := 10, success := 0, r429 := 0, windowStart := w, lastUp := lu,
          lastDown := ld, hardCap := false, last429At := 0, updatedAt := 0 }
        evs).hardCap = true ∧
    1 ≤ (runAdaptive
        { guess := 10, success := 0, r429 := 0, windowStart := w, lastUp := lu,
          lastDown := ld, hardCap := false, last429At := 0, updatedAt := 0 }
        evs).guess ∧
    (runAdaptive
        { guess := 10, success := 0, r429 := 0, windowStart := w, lastUp := lu,
          lastDown := ld, hardCap := false, last429At := 0, updatedAt := 0 }
        evs).guess ≤ 6 := by
  refine c5_master evs _ w ld ht rfl (Or.inl ?_)
  exact ⟨hr, by simpa using hs, rfl, rfl, rfl, rfl⟩

/-- Closed witness for the hard-cap reaction: two rejects at 40 000 ms and
50 000 ms, one interleaved success, inside the window starting at 0. -/
theorem adaptive_hardcap_reaction_witness :
    (runAdaptive
        { guess := 10, success := 0, r429 := 0, windowStart := 0, lastUp := 0,
          lastDown := 0, hardCap := false, last429At := 0, updatedAt := 0 }
        [AdEvent.reject 40000, AdEvent.success 45000, AdEvent.reject 50000]).hardCap
      = true ∧
    1 ≤ (runAdaptive
        { guess := 10, success := 0, r429 := 0, windowStart := 0, lastUp := 0,
          lastDown := 0, hardCap := false, last429At := 0, updatedAt := 0 }
        [AdEvent.reject 40000, AdEvent.success 45000, AdEvent.reject 50000]).guess ∧
    (runAdaptive
        { guess := 10, success := 0, r429 := 0, windowStart := 0, lastUp := 0,
          lastDown := 0, hardCap := false, last429At := 0, updatedAt := 0 }
        [AdEvent.reject 40000, AdEvent.success 45000, AdEvent.reject 50000]).guess ≤ 6 :=
  adaptive_hardcap_reaction 0 0 0
    [AdEvent.reject 40000, AdEvent.success 45000, AdEvent.reject 50000]
    (by decide) (by decide) (by decide)

/-! ### Metrics aggregator (part_002 lines 248-432)

The request-timing path contains a genuine defect: `observeDuration`
(part_002 lines 386-399) binds the global duration histogram to a local named
`dh`, but the subsequent statements read an identifier `h` that is not in
scope anywhere in the module.  In an ES module (strict mode) evaluating
`h.count` therefore throws a ReferenceError — after the queue-wait histogram
has already been updated with the request duration.  The embedding models this
by returning the partially updated state together with a thrown-error flag. -/

/-- Histogram as stored in `metrics.histograms` (part_002 lines 262-276):
bucket upper bounds, per-bucket counts with one extra slot for +Inf, running
sum and count. -/
structure Histogram where
  buckets : List ℚ
  counts : List Nat
  sum : ℚ
  count : Nat
deriving Repr, DecidableEq

/-- Increment the final (+Inf) slot of a count list. -/
def bumpLast : List Nat → List Nat
  | [] => []
  | [c] => [c + 1]
  | c :: rest => c :: bumpLast rest

/-- Walk buckets and counts in parallel: increment the count of the first
bucket whose bound is at least the observation, the +Inf slot otherwise —
the loop of part_002 lines 394-398. -/
def bumpBucket : List ℚ → List Nat → ℚ → List Nat
  | b :: bs, c :: cs, secs =>
      if secs ≤ b then (c + 1) :: cs else c :: bumpBucket bs cs secs
  | [], cs, _ => bumpLast cs
  | _ :: _, [], _ => []

/-- Record one observation into a histogram: bump count, add to sum, place
into the first fitting bucket. -/
def observeHist (h : Histogram) (seconds : ℚ) : Histogram :=
  { h with counts := bumpBucket h.buckets h.counts seconds,
           sum := h.sum + seconds, count := h.count + 1 }

/-- The slice of `metrics` state relevant to request timing (part_002 lines
248-281): the labelled request counter, the 5xx counter, the global request
duration histogram, the queue-wait histogram, and the per-path histograms. -/
structure MetricsState where
  http_requests_total : List (String × Nat)
  http_errors_total : Nat
  http_request_duration_seconds : Histogram
  queue_wait_duration_seconds : Histogram
  pathHistograms : List (String × Histogram)
deriving Repr, DecidableEq

/-- Increment an assoc-list counter keyed by the `method|path|status` string. -/
def bumpAssoc : List (String × Nat) → String → List (String × Nat)
  | [], key => [(key, 1)]
  | (k, v) :: rest, key =>
      if k = key then (k, v + 1) :: rest else (k, v) :: bumpAssoc rest key

/-- The fresh histograms of part_002 lines 264-275. -/
def initialHttpHist : Histogram :=
  { buckets := [5/1000, 1/100, 1/50, 1/20, 1/10, 1/4, 1/2, 1, 5/2, 5, 10],
    counts := [0, 0, 0, 0, 0, 0, 0, 0, 0, 0, 0, 0], sum := 0, count := 0 }

def initialQueueHist : Histogram :=
  { buckets := [1/100, 1/20, 1/10, 1/4, 1/2, 1, 5/2, 5],
    counts := [0, 0, 0, 0, 0, 0, 0, 0, 0], sum := 0, count := 0 }

def initialMetrics : MetricsState :=
  { http_requests_total := [], http_errors_total := 0,
    http_request_duration_seconds := initialHttpHist,
    queue_wait_duration_seconds := initialQueueHist, pathHistograms := [] }

/-- Shallow embedding of `observeDuration` (part_002 lines 386-399).  The
function updates the queue-wait histogram (`qh`), then evaluates `h.count`
where `h` is undefined — the local holding the request-duration histogram was
named `dh` — and throws a ReferenceError.  The Bool result is the thrown flag;
`http_request_duration_seconds` is never touched. -/
def observeDuration (m : MetricsState) (seconds : ℚ) : MetricsState × Bool :=
  ({ m with queue_wait_duration_seconds :=
      observeHist m.queue_wait_duration_seconds seconds }, true)

/-- Shallow embedding of `ensurePathHistogram` (part_002 lines 369-375). -/
def ensurePathHistogram (l : List (String × Histogram)) (p : String) :
    List (String × Histogram) :=
  match l with
  | [] => [(p, { initialHttpHist with buckets := initialHttpHist.buckets })]
  | (k, h) :: rest =>
      if k = p then (k, h) :: rest else (k, h) :: ensurePathHistogram rest p

/-- Shallow embedding of `observeDurationForPath` (part_002 lines 377-384):
would record the observation into the per-path histogram. -/
def observeDurationForPath (m : MetricsState) (p : String) (seconds : ℚ) :
    MetricsState :=
  let l := ensurePathHistogram m.pathHistograms p
  { m with pathHistograms :=
      l.map fun kv => if kv.1 = p then (kv.1, observeHist kv.2 seconds) else kv }

/-- Shallow embedding of `incRequest` (part_002 lines 401-406): bump the
labelled request counter, bump the 5xx error counter when applicable, then
call `observeDuration` — which throws, so the thrown flag propagates. -/
def incRequest (m : MetricsState) (method p : String) (status : Nat)
    (durationMs : ℚ) : MetricsState × Bool :=
  let key := method ++ "|" ++ p ++ "|" ++ toString status
  let m1 := { m with http_requests_total := bumpAssoc m.http_requests_total key }
  let m2 := if 500 ≤ status then { m1 with http_errors_total := m1.http_errors_total + 1 }
            else m1
  observeDuration m2 (durationMs / 1000)

/-- Shallow embedding of the finish handler of the timing middleware (part_002
lines 417-432): skip the metrics path; otherwise run `incRequest` inside a
try/catch — since `incRequest` throws (via `observeDuration`), the per-path
observation on line 426 is never reached and the error is swallowed. -/
def metricsFinishHandler (metricsPath : String) (m : MetricsState)
    (method p : String) (status : Nat) (durationMs : ℚ) : MetricsState :=
  if p = metricsPath then m
  else
    let r := incRequest m method p status durationMs
    if r.2 then r.1 else observeDurationForPath r.1 p (durationMs / 1000)

/-- Claim C9, divergence witness against the code: for every completed request
off the metrics path, the finish handler leaves the global
`http_request_duration_seconds` histogram and the per-route histograms
completely unchanged, while the queue-wait histogram absorbs the observation —
because `observeDuration` dereferences the undefined identifier `h` and throws
after updating only the queue-wait histogram.  The claim (and part_002's own
declared-but-unused `dh` local, +Inf bucket comment, and the per-path call on
line 426) show the intent was to record into the duration histograms. -/
theorem metrics_duration_histogram_never_updated (m : MetricsState)
    (method p : String) (status : Nat) (durationMs : ℚ)
    (hp : p ≠ "/metrics") :
    (metricsFinishHandler "/metrics" m method p status durationMs).http_request_duration_seconds =
      m.http_request_duration_seconds ∧
    (metricsFinishHandler "/metrics" m method p status durationMs).pathHistograms =
      m.pathHistograms ∧
    (metricsFinishHandler "/metrics" m method p status durationMs).queue_wait_duration_seconds.count =
      m.queue_wait_duration_seconds.count + 1 := by
  unfold metricsFinishHandler incRequest observeDuration
  rw [if_neg hp]
  dsimp only
  split_ifs <;> first
  | exact ⟨rfl, rfl, rfl⟩
  | simp_all

/-- Closed witness: a completed `GET /health` with status 200 and duration
5 ms leaves the global duration histogram of a fresh metrics state untouched. -/
theorem metrics_duration_histogram_never_updated_witness :
    (metricsFinishHandler "/metrics" initialMetrics "GET" "/health" 200
        5).http_request_duration_seconds =
      initialMetrics.http_request_duration_seconds ∧
    (metricsFinishHandler "/metrics" initialMetrics "GET" "/health" 200
        5).pathHistograms = initialMetrics.pathHistograms ∧
    (metricsFinishHandler "/metrics" initialMetrics "GET" "/health" 200
        5).queue_wait_duration_seconds.count =
      initialMetrics.queue_wait_duration_seconds.count + 1 :=
  metrics_duration_histogram_never_updated initialMetrics "GET" "/health" 200 5
    (by decide)

/-! ### Admission middleware path guard (part_002 lines 189-227) and the
upstream-call gating of the route handlers (part_002 lines 988-1021,
1261-1337) -/

/-- The character sequence the admission middleware tests for: the regex
`/\/v1\//` of part_002 line 191 matches exactly when the path contains the
substring denoted by `slashV1`. -/
def slashV1 : List Char := "/v1/".toList

/-- Decide whether `pat` is a prefix of `l`. -/
def startsWithChars : List Char → List Char → Bool
  | [], _ => true
  | _ :: _, [] => false
  | a :: as, b :: bs => decide (a = b) && startsWithChars as bs

/-- Decide whether `slashV1` occurs as a contiguous substring, as the regex
test does. -/
def hasV1Sub : List Char → Bool
  | [] => false
  | c :: rest => startsWithChars slashV1 (c :: rest) || hasV1Sub rest

/-- Embedding of the middleware's route guard (part_002 line 191). -/
def rateLimitGuardApplies (p : String) : Bool := hasV1Sub p.toList

lemma startsWithChars_iff :
    ∀ (pat l : List Char), startsWithChars pat l = true ↔ ∃ rest, l = pat ++ rest := by
  intro pat
  induction pat with
  | nil => intro l; simp [startsWithChars]
  | cons a as ih =>
    intro l
    cases l with
    | nil => simp [startsWithChars]
    | cons b bs =>
      simp only [startsWithChars, Bool.and_eq_true, decide_eq_true_eq, ih,
        List.cons_append, List.cons.injEq]
      constructor
      · rintro ⟨hab, rest, hr⟩; exact ⟨rest, hab.symm, hr⟩
      · rintro ⟨rest, hab, hr⟩; exact ⟨hab.symm, rest, hr⟩

lemma hasV1Sub_iff :
    ∀ l : List Char, hasV1Sub l = true ↔ ∃ l1 l2, l = l1 ++ slashV1 ++ l2 := by
  intro l
  induction l with
  | nil =>
    simp only [hasV1Sub]
    constructor
    · intro h; cases h
    · rintro ⟨l1, l2, h⟩
      have : slashV1 ≠ [] := by decide
      rcases List.append_eq_nil.mp (List.append_eq_nil.mp h.symm).1 with ⟨-, h2⟩
      exact absurd h2 this
  | cons c rest ih =>
    simp only [hasV1Sub, Bool.or_eq_true, startsWithChars_iff, ih]
    constructor
    · rintro (⟨r, hr⟩ | ⟨l1, l2, h⟩)
      · exact ⟨[], r, by simp [hr]⟩
      · exact ⟨c :: l1, l2, by simp [h]⟩
    · rintro ⟨l1, l2, h⟩
      cases l1 with
      | nil => exact Or.inl ⟨l2, by simpa using h⟩
      | cons a l1 =>
        right
        have h' : c = a ∧ rest = l1 ++ slashV1 ++ l2 := by simpa using h
        exact ⟨l1, l2, by simpa using h'.2⟩

/-- Decision taken by the admission middleware for one request on the
in-process fallback: pass through with no rate check, admit, or reject with
HTTP 429 and a retry hint (part_002 lines 189-227; the hint is
`rl.resetMs || 1000`). -/
inductive AdmissionDecision
  | next
  | admitted (used : Nat)
  | rejected429 (retryMs : Nat)
deriving Repr, DecidableEq

/-- Shallow embedding of the admission middleware (part_002 lines 189-227) on
the in-process fallback: paths without the `/v1/` substring are passed through
without any rate-limit interaction. -/
def admissionMiddleware (limit leeway : Nat) (p : String) (st : Option RLEntry)
    (now : Nat) : AdmissionDecision × Option RLEntry :=
  if rateLimitGuardApplies p = false then (.next, st)
  else
    let r := checkRateLimit limit leeway st now
    if r.1.allowed then (.admitted r.1.used, some r.2)
    else
      let resetMs := r.2.windowStart + 60000 - now
      (.rejected429 (if resetMs = 0 then 1000 else resetMs), some r.2)

/-- Claim C10: the middleware applies the rate-limit check exactly to paths
containing the substring `/v1/` (the characterization ties the executable
guard to substring decomposition); the alias route path
`/api/chat/completions` contains no such substring, so the middleware passes
it through with untouched limiter state, and no path without the substring can
ever receive a `rate_limit_exceeded` (HTTP 429) rejection. -/
theorem admission_only_v1_paths :
    (∀ p : String, rateLimitGuardApplies p = true ↔
        ∃ l1 l2, p.toList = l1 ++ slashV1 ++ l2) ∧
    (∀ (limit leeway : Nat) (st : Option RLEntry) (now : Nat),
        admissionMiddleware limit leeway "/api/chat/completions" st now =
          (.next, st)) ∧
    (∀ (p : String) (limit leeway : Nat) (st : Option RLEntry) (now : Nat),
        rateLimitGuardApplies p = false →
        ∀ retryMs : Nat,
          (admissionMiddleware limit leeway p st now).1 ≠ .rejected429 retryMs) := by
  refine ⟨fun p => hasV1Sub_iff p.toList, fun limit leeway st now => ?_, ?_⟩
  · unfold admissionMiddleware
    rw [if_pos (by decide)]
  · intro p limit leeway st now hguard retryMs
    unfold admissionMiddleware
    rw [if_pos (by rw [hguard])]
    exact fun h => by cases h

/-- Closed witness: the alias path is passed through on a fresh limiter state
and cannot be rejected. -/
theorem admission_only_v1_paths_witness :
    admissionMiddleware 5 0 "/api/chat/completions" none 0 = (.next, none) ∧
    (admissionMiddleware 5 0 "/api/chat/completions" none 0).1 ≠ .rejected429 1000 :=
  ⟨admission_only_v1_paths.2.1 5 0 none 0,
   admission_only_v1_paths.2.2 "/api/chat/completions" 5 0 none 0 (by decide) 1000⟩

/-- Gate interactions a route handler performs around its upstream provider
call, read off the source in order. -/
inductive PathStep
  | acquireGate
  | invokeUpstream
  | releaseGate
deriving Repr, DecidableEq

/-- True when every upstream invocation in the step list happens while a gate
slot is held (threading the held flag through acquisitions and releases). -/
def upstreamCallsHeld : Bool → List PathStep → Bool
  | _, [] => true
  | _, PathStep.acquireGate :: rest => upstreamCallsHeld true rest
  | _, PathStep.releaseGate :: rest => upstreamCallsHeld false rest
  | held, PathStep.invokeUpstream :: rest => held && upstreamCallsHeld held rest

/-- Steps of `executeUpstream` (part_002 lines 183-186): acquire, invoke,
release in the finally. -/
def executeUpstreamSteps : List PathStep :=
  [PathStep.acquireGate, PathStep.invokeUpstream, PathStep.releaseGate]

/-- The non-streaming `/v1/embeddings` handler (part_002 line 999) wraps its
upstream call in `executeUpstream`. -/
def embeddingsNonStreamSteps : List PathStep := executeUpstreamSteps

/-- The streaming branch of `handleChatCompletions` (part_002 lines 1270 and
1292) acquires a slot for the stream lifetime and releases in a finally. -/
def chatCompletionsStreamSteps : List PathStep :=
  [PathStep.acquireGate, PathStep.invokeUpstream, PathStep.releaseGate]

/-- The non-streaming branch of `handleChatCompletions` (part_002 lines
1316-1322) calls `client.chat.completions.create` directly: no `acquireSlot`,
no `executeUpstream`. -/
def chatCompletionsNonStreamSteps : List PathStep := [PathStep.invokeUpstream]

/-- Claim C2, evaluation at the failing input: the non-streaming
`/v1/chat/completions` path invokes the upstream provider while holding no
concurrency-gate slot, unlike the embeddings path and the streaming chat path,
which do hold one for the whole call. -/
theorem chat_nonstream_upstream_without_slot :
    upstreamCallsHeld false chatCompletionsNonStreamSteps = false ∧
    upstreamCallsHeld false embeddingsNonStreamSteps = true ∧
    upstreamCallsHeld false chatCompletionsStreamSteps = true := by
  refine ⟨rfl, rfl, rfl⟩

end Gateway
